import Mathlib

/-!
Verification of the reminder scheduling and delivery-queue subsystem of
telegram-reminder-bot (bot.go, database.go).

Modelling conventions:
* Instants are local wall-clock seconds (a `Nat`), interpreted in the single
  process-wide location `_location` with a fixed offset (no DST transition is
  modelled); `t.In(_location)` is therefore the identity on the timeline, and
  calendar fields of an instant are obtained by plain arithmetic.
* The textual datetime pattern "yyyy.mm.dd hh:MM" is injective at minute
  resolution, so the formatted string of an instant is modelled by its minute
  index `t / 60`: two instants format equally iff they lie in the same minute.
* gorm specifics mirrored from database.go: `Save` on a struct with a zero
  primary key inserts a fresh row with an auto-incremented id; struct fields
  not mentioned in a literal keep their Go zero values (`EnqueuedOn` stays the
  zero time, modelled as 0; `DeliveredOn` stays NULL; `NumTries` stays 0);
  `Update` applies to every row matched by the Where clause and
  `RowsAffected` counts the matched rows; `First` returns the matching row
  with the smallest primary key, i.e. the earliest inserted; `Create` always
  inserts a new row.
* Rows are kept in ascending primary-key (insertion) order in the model lists.
-/

namespace ReminderBot

/-- A parsed `(message, when)` candidate (struct `parsedItem` in bot.go).
`generated` marks synthetic candidates added by `filterParsed`. -/
structure ParsedItem where
  message : String
  when : Nat
  generated : Bool
deriving DecidableEq, Repr

/-- Hour-of-day of a local instant (`time.Time.Hour`). -/
def hourOf (t : Nat) : Nat := t / 3600 % 24

/-- Minute-of-hour of a local instant (`time.Time.Minute`). -/
def minuteOf (t : Nat) : Nat := t / 60 % 60

/-- Calendar-day index of a local instant. -/
def dayOf (t : Nat) : Nat := t / 86400

/-- Minute index of an instant: stands for the string produced by
`Format("2006.01.02 15:04")`, which is injective at minute resolution. -/
def fmtMinute (t : Nat) : Nat := t / 60

/-- The configuration fields of bot.go's `config` that the core uses. -/
structure Config where
  maxNumTries : Int
  defaultHour : Nat
deriving DecidableEq, Repr

/-- Expansion step of `filterParsed` (bot.go, the first loop) for one raw
pair: keep it as it is, and additionally emit one synthetic candidate when
its local time-of-day is exactly 00:00 (shifted by `defaultHour` hours) or,
failing that, when its hour is before noon (shifted by 12 hours). -/
def expandOne (defaultHour : Nat) (p : ParsedItem) : List ParsedItem :=
  if hourOf p.when = 0 ∧ minuteOf p.when = 0 then
    [p, { message := p.message, when := p.when + 3600 * defaultHour, generated := true }]
  else if hourOf p.when < 12 then
    [p, { message := p.message, when := p.when + 3600 * 12, generated := true }]
  else
    [p]

/-- The full expansion loop of `filterParsed`: originals in input order, each
immediately followed by its synthetic twin if any. -/
def expandParsed (defaultHour : Nat) (parsed : List ParsedItem) : List ParsedItem :=
  parsed.flatMap (expandOne defaultHour)

/-- Second loop of `filterParsed`: walk the expanded list with the set of
already-seen formatted values (the `duplicated` map), skipping candidates
whose formatted value was seen and keeping unseen ones only when they are
strictly in the future (`when.After(now)`). -/
def dedupFilter (now : Nat) : List ParsedItem → List Nat → List ParsedItem
  | [], _ => []
  | p :: rest, seen =>
    if fmtMinute p.when ∈ seen then
      dedupFilter now rest seen
    else if now < p.when then
      p :: dedupFilter now rest (fmtMinute p.when :: seen)
    else
      dedupFilter now rest (fmtMinute p.when :: seen)

/-- `filterParsed` of bot.go: expansion, then dedup-and-future filtering,
with `now` the wall clock read between the two loops. -/
def filterParsed (conf : Config) (now : Nat) (parsed : List ParsedItem) : List ParsedItem :=
  dedupFilter now (expandParsed conf.defaultHour parsed) []

/-- Modelled from the spec: the deduplication step alone ("keep only the
first candidate seen for each distinct formatted value, in original order"),
to be compared with the code's fused `dedupFilter`. -/
def keepFirstPerKey : List ParsedItem → List Nat → List ParsedItem
  | [], _ => []
  | p :: rest, seen =>
    if fmtMinute p.when ∈ seen then
      keepFirstPerKey rest seen
    else
      p :: keepFirstPerKey rest (fmtMinute p.when :: seen)

/-- A row of the `queue_items` table (struct `QueueItem` in database.go). -/
structure QueueItem where
  id : Int
  chatId : Int
  messageId : Int
  message : String
  enqueuedOn : Nat
  fireOn : Nat
  deliveredOn : Option Nat
  numTries : Nat
deriving DecidableEq, Repr

/-- A row of the `temporary_messages` table (struct `TemporaryMessage`). -/
structure TemporaryMessage where
  id : Int
  chatId : Int
  messageId : Int
  message : String
  savedOn : Nat
deriving DecidableEq, Repr

/-- The persistent store (struct `Database`), with rows in ascending
primary-key order and the next auto-increment keys. -/
structure Database where
  items : List QueueItem
  nextId : Int
  temps : List TemporaryMessage
  nextTempId : Int
deriving DecidableEq, Repr

/-- `DefaultMaxNumTries` of database.go. -/
def DefaultMaxNumTries : Int := 10

/-- Stable insertion (ascending `fireOn`) used to model `order by fire_on asc`. -/
def insertFireOnAsc (q : QueueItem) : List QueueItem → List QueueItem
  | [] => [q]
  | x :: xs => if q.fireOn < x.fireOn then q :: x :: xs else x :: insertFireOnAsc q xs

/-- Stable sort by ascending `fireOn`. -/
def sortFireOnAsc : List QueueItem → List QueueItem
  | [] => []
  | x :: xs => insertFireOnAsc x (sortFireOnAsc xs)

/-- Stable insertion (descending `enqueuedOn`) used to model
`order by enqueued_on desc`. -/
def insertEnqueuedOnDesc (q : QueueItem) : List QueueItem → List QueueItem
  | [] => [q]
  | x :: xs => if x.enqueuedOn < q.enqueuedOn then q :: x :: xs else x :: insertEnqueuedOnDesc q xs

/-- Stable sort by descending `enqueuedOn`. -/
def sortEnqueuedOnDesc : List QueueItem → List QueueItem
  | [] => []
  | x :: xs => insertEnqueuedOnDesc x (sortEnqueuedOnDesc xs)

/-- `Database.Enqueue` (database.go): `Save` of a literal that sets only
`ChatID`, `MessageID`, `Message` and `FireOn`; the remaining fields keep
their Go zero values, in particular `EnqueuedOn` is never assigned and stays
the zero time (0 here). Returns `RowsAffected > 0`. -/
def enqueue (d : Database) (chatID messageID : Int) (message : String) (fireOn : Nat) :
    Database × Bool :=
  let item : QueueItem :=
    { id := d.nextId, chatId := chatID, messageId := messageID, message := message,
      enqueuedOn := 0, fireOn := fireOn, deliveredOn := none, numTries := 0 }
  ({ d with items := d.items ++ [item], nextId := d.nextId + 1 }, true)

/-- `Database.DeliverableQueueItems` (database.go): substitute
`DefaultMaxNumTries` for a non-positive bound, then select rows with
`delivered_on is null and num_tries < ? and fire_on <= ?` ordered by
`enqueued_on desc`. -/
def deliverableQueueItems (d : Database) (maxNumTries : Int) (now : Nat) : List QueueItem :=
  let m := if maxNumTries ≤ 0 then DefaultMaxNumTries else maxNumTries
  sortEnqueuedOnDesc (d.items.filter (fun q =>
    decide (q.deliveredOn = none ∧ (q.numTries : Int) < m ∧ q.fireOn ≤ now)))

/-- `Database.UndeliveredQueueItems` (database.go): rows with
`chat_id = ? and delivered_on is null` ordered by `fire_on asc`. -/
def undeliveredQueueItems (d : Database) (chatID : Int) : List QueueItem :=
  sortFireOnAsc (d.items.filter (fun q =>
    decide (q.chatId = chatID ∧ q.deliveredOn = none)))

/-- `Database.MarkQueueItemAsDelivered` (database.go): an unconditional
`Update("delivered_on", time.Now())` on rows with `id = ? and chat_id = ?`;
the Where clause does not test `delivered_on`, so a matching row is updated
even when it is already delivered. Returns `RowsAffected > 0`. -/
def markQueueItemAsDelivered (d : Database) (chatID queueID : Int) (now : Nat) :
    Database × Bool :=
  let affected := d.items.countP (fun q => decide (q.id = queueID ∧ q.chatId = chatID))
  ({ d with items := d.items.map (fun q =>
      if q.id = queueID ∧ q.chatId = chatID then { q with deliveredOn := some now } else q) },
   0 < affected)

/-- `Database.IncreaseNumTries` (database.go): unconditional
`Update("num_tries", num_tries + 1)` on rows with `id = ? and chat_id = ?`.
Returns `RowsAffected > 0`. -/
def increaseNumTries (d : Database) (chatID queueID : Int) : Database × Bool :=
  let affected := d.items.countP (fun q => decide (q.id = queueID ∧ q.chatId = chatID))
  ({ d with items := d.items.map (fun q =>
      if q.id = queueID ∧ q.chatId = chatID then { q with numTries := q.numTries + 1 } else q) },
   0 < affected)

/-- `Database.SaveTemporaryMessage` (database.go): a gorm `Create`, which
always inserts a fresh row (it does not overwrite an existing row with the
same `(chat_id, message_id)`). -/
def saveTemporaryMessage (d : Database) (chatID messageID : Int) (message : String) (now : Nat) :
    Database × Bool :=
  let t : TemporaryMessage :=
    { id := d.nextTempId, chatId := chatID, messageId := messageID,
      message := message, savedOn := now }
  ({ d with temps := d.temps ++ [t], nextTempId := d.nextTempId + 1 }, true)

/-- `Database.LoadTemporaryMessage` (database.go): `First` on rows with
`chat_id = ? and message_id = ?`, i.e. the matching row with the smallest
primary key (the earliest inserted); `none` models the not-found error. -/
def loadTemporaryMessage (d : Database) (chatID messageID : Int) : Option TemporaryMessage :=
  d.temps.find? (fun t => decide (t.chatId = chatID ∧ t.messageId = messageID))

/-- `Database.DeleteTemporaryMessage` (database.go): deletes every row with
`chat_id = ? and message_id = ?`; returns `RowsAffected > 0`. -/
def deleteTemporaryMessage (d : Database) (chatID messageID : Int) : Database × Bool :=
  let affected := d.temps.countP (fun t => decide (t.chatId = chatID ∧ t.messageId = messageID))
  ({ d with temps := d.temps.filter (fun t =>
      !(decide (t.chatId = chatID ∧ t.messageId = messageID))) },
   0 < affected)

/-- One dispatch attempt of `processQueue` (bot.go) on a queue item `q`,
with `sendOk` the outcome of `client.SendMessage`: on success mark the item
as delivered, on failure do not; in both cases increase `num_tries`. -/
def dispatchAttempt (d : Database) (q : QueueItem) (sendOk : Bool) (now : Nat) : Database :=
  let d1 := if sendOk then (markQueueItemAsDelivered d q.chatId q.id now).1 else d
  (increaseNumTries d1 q.chatId q.id).1

/-! ### Lemmas about the Candidate Resolver -/

theorem dedupFilter_future (now : Nat) (l : List ParsedItem) (seen : List Nat) :
    ∀ p ∈ dedupFilter now l seen, now < p.when := by
  induction l generalizing seen with
  | nil => intro p hp; simp [dedupFilter] at hp
  | cons q rest ih =>
    intro p hp
    unfold dedupFilter at hp
    split at hp
    · exact ih seen p hp
    · split at hp
      · rcases List.mem_cons.mp hp with rfl | hp'
        · assumption
        · exact ih _ p hp'
      · exact ih _ p hp

theorem dedupFilter_eq_keepFirst_filter (now : Nat) (l : List ParsedItem) (seen : List Nat) :
    dedupFilter now l seen =
      (keepFirstPerKey l seen).filter (fun p => decide (now < p.when)) := by
  induction l generalizing seen with
  | nil => simp [dedupFilter, keepFirstPerKey]
  | cons q rest ih =>
    unfold dedupFilter keepFirstPerKey
    split
    · exact ih seen
    · split
      · simp only [List.filter_cons, decide_eq_true_eq, if_pos ‹now < q.when›]
        rw [ih]
      · simp only [List.filter_cons, decide_eq_true_eq, if_neg ‹¬ now < q.when›]
        exact ih _

theorem keepFirstPerKey_keys (l : List ParsedItem) (seen : List Nat) :
    (∀ p ∈ keepFirstPerKey l seen, fmtMinute p.when ∉ seen) ∧
    List.Pairwise (fun a b => fmtMinute a.when ≠ fmtMinute b.when) (keepFirstPerKey l seen) := by
  induction l generalizing seen with
  | nil => simp [keepFirstPerKey]
  | cons q rest ih =>
    unfold keepFirstPerKey
    split
    · exact ih seen
    · obtain ⟨hkeys, hpw⟩ := ih (fmtMinute q.when :: seen)
      refine ⟨?_, ?_⟩
      · intro p hp
        rcases List.mem_cons.mp hp with rfl | hp'
        · assumption
        · intro hmem
          exact hkeys p hp' (List.mem_cons_of_mem _ hmem)
      · refine List.pairwise_cons.mpr ⟨?_, hpw⟩
        intro p hp h
        exact hkeys p hp (h ▸ List.mem_cons_self _ _)

/-! ### Claim theorems for the Candidate Resolver -/

/-- C4: each raw pair is kept unchanged and triggers at most one synthetic
candidate, by mutually exclusive cases checked in order: at exactly 00:00 the
resolver emits exactly the original and one synthetic at defaultHour:00 on
the same date; at an hour in [1,11] it emits the original and one synthetic
12 hours later; at an hour in [12,23] it emits only the original. -/
theorem c4_expansion_cases (d : Nat) (p : ParsedItem)
    (hd : d < 24) (hmin : p.when % 60 = 0) :
    ((hourOf p.when = 0 ∧ minuteOf p.when = 0) →
      expandOne d p =
        [p, { message := p.message, when := p.when + 3600 * d, generated := true }] ∧
      dayOf (p.when + 3600 * d) = dayOf p.when ∧
      hourOf (p.when + 3600 * d) = d ∧
      minuteOf (p.when + 3600 * d) = 0) ∧
    ((1 ≤ hourOf p.when ∧ hourOf p.when ≤ 11) →
      expandOne d p =
        [p, { message := p.message, when := p.when + 3600 * 12, generated := true }]) ∧
    ((12 ≤ hourOf p.when ∧ hourOf p.when ≤ 23) →
      expandOne d p = [p]) ∧
    (expandOne d p).head? = some p ∧ (expandOne d p).length ≤ 2 := by
  unfold expandOne hourOf minuteOf dayOf at *
  refine ⟨?_, ?_, ?_, ?_, ?_⟩
  · rintro ⟨h0, hm0⟩
    rw [if_pos ⟨h0, hm0⟩]
    refine ⟨rfl, ?_, ?_, ?_⟩ <;> omega
  · rintro ⟨h1, h11⟩
    rw [if_neg (by omega), if_pos (by omega)]
  · rintro ⟨h12, _⟩
    rw [if_neg (by omega), if_neg (by omega)]
  · split
    · rfl
    · split <;> rfl
  · split
    · simp
    · split <;> simp

/-- C4 witness: a concrete raw pair at local midnight with defaultHour 8. -/
theorem c4_expansion_cases_witness :
    expandOne 8 { message := "m", when := 0, generated := false } =
      [{ message := "m", when := 0, generated := false },
       { message := "m", when := 28800, generated := true }] :=
  (((c4_expansion_cases 8 { message := "m", when := 0, generated := false }
      (by decide) (by decide)).1 (by decide)).1)

/-- C5: every candidate returned by `filterParsed` has an instant strictly
after the `now` read at filter time. -/
theorem c5_future_only (conf : Config) (now : Nat) (parsed : List ParsedItem) :
    ∀ p ∈ filterParsed conf now parsed, now < p.when := by
  intro p hp
  exact dedupFilter_future now (expandParsed conf.defaultHour parsed) [] p hp

/-- C5 witness: a concrete candidate surviving the filter is in the future. -/
theorem c5_future_only_witness :
    (5 : Nat) < ParsedItem.when { message := "x", when := 100, generated := false } :=
  c5_future_only { maxNumTries := 5, defaultHour := 8 } 5
    [{ message := "x", when := 100, generated := false }]
    { message := "x", when := 100, generated := false } (by decide)

/-- C6: no two returned candidates share a minute-resolution formatted value,
and the result is exactly the future-filter applied to the first-per-key
deduplication of the expansion, hence keeps only the first candidate in
expansion order for each distinct formatted value and preserves that order. -/
theorem c6_dedup (conf : Config) (now : Nat) (parsed : List ParsedItem) :
    List.Pairwise (fun a b => fmtMinute a.when ≠ fmtMinute b.when)
      (filterParsed conf now parsed) ∧
    filterParsed conf now parsed =
      (keepFirstPerKey (expandParsed conf.defaultHour parsed) []).filter
        (fun p => decide (now < p.when)) := by
  constructor
  · have h := (keepFirstPerKey_keys (expandParsed conf.defaultHour parsed) []).2
    have hsub : List.Sublist (filterParsed conf now parsed)
        (keepFirstPerKey (expandParsed conf.defaultHour parsed) []) := by
      rw [filterParsed, dedupFilter_eq_keepFirst_filter]
      exact List.filter_sublist _
    exact h.sublist hsub
  · exact dedupFilter_eq_keepFirst_filter now (expandParsed conf.defaultHour parsed) []

/-! ### Lemmas about the Reminder Store -/

theorem mem_insertFireOnAsc (q a : QueueItem) (l : List QueueItem) :
    a ∈ insertFireOnAsc q l ↔ a = q ∨ a ∈ l := by
  induction l with
  | nil => simp [insertFireOnAsc]
  | cons x xs ih =>
    unfold insertFireOnAsc
    split
    · simp
    · simp only [List.mem_cons, ih]
      tauto

theorem mem_sortFireOnAsc (a : QueueItem) (l : List QueueItem) :
    a ∈ sortFireOnAsc l ↔ a ∈ l := by
  induction l with
  | nil => simp [sortFireOnAsc]
  | cons x xs ih =>
    unfold sortFireOnAsc
    rw [mem_insertFireOnAsc]
    simp [ih]

theorem pairwise_insertFireOnAsc (q : QueueItem) (l : List QueueItem)
    (h : List.Pairwise (fun a b => a.fireOn ≤ b.fireOn) l) :
    List.Pairwise (fun a b => a.fireOn ≤ b.fireOn) (insertFireOnAsc q l) := by
  induction l with
  | nil => simp [insertFireOnAsc]
  | cons x xs ih =>
    rcases List.pairwise_cons.mp h with ⟨hx, hxs⟩
    unfold insertFireOnAsc
    split
    · refine List.pairwise_cons.mpr ⟨?_, h⟩
      intro b hb
      rcases List.mem_cons.mp hb with rfl | hb'
      · omega
      · have := hx b hb'
        omega
    · refine List.pairwise_cons.mpr ⟨?_, ih hxs⟩
      intro b hb
      rcases (mem_insertFireOnAsc q b xs).mp hb with rfl | hb'
      · omega
      · exact hx b hb'

theorem pairwise_sortFireOnAsc (l : List QueueItem) :
    List.Pairwise (fun a b => a.fireOn ≤ b.fireOn) (sortFireOnAsc l) := by
  induction l with
  | nil => simp [sortFireOnAsc]
  | cons x xs ih =>
    exact pairwise_insertFireOnAsc x (sortFireOnAsc xs) ih

theorem mem_insertEnqueuedOnDesc (q a : QueueItem) (l : List QueueItem) :
    a ∈ insertEnqueuedOnDesc q l ↔ a = q ∨ a ∈ l := by
  induction l with
  | nil => simp [insertEnqueuedOnDesc]
  | cons x xs ih =>
    unfold insertEnqueuedOnDesc
    split
    · simp
    · simp only [List.mem_cons, ih]
      tauto

theorem mem_sortEnqueuedOnDesc (a : QueueItem) (l : List QueueItem) :
    a ∈ sortEnqueuedOnDesc l ↔ a ∈ l := by
  induction l with
  | nil => simp [sortEnqueuedOnDesc]
  | cons x xs ih =>
    unfold sortEnqueuedOnDesc
    rw [mem_insertEnqueuedOnDesc]
    simp [ih]

theorem mem_deliverableQueueItems (d : Database) (maxNumTries : Int) (now : Nat)
    (q : QueueItem) :
    q ∈ deliverableQueueItems d maxNumTries now ↔
      q ∈ d.items ∧ q.deliveredOn = none ∧
        (q.numTries : Int) < (if maxNumTries ≤ 0 then DefaultMaxNumTries else maxNumTries) ∧
        q.fireOn ≤ now := by
  unfold deliverableQueueItems
  rw [mem_sortEnqueuedOnDesc, List.mem_filter]
  simp only [decide_eq_true_eq]

theorem mem_undeliveredQueueItems (d : Database) (chatID : Int) (q : QueueItem) :
    q ∈ undeliveredQueueItems d chatID ↔
      q ∈ d.items ∧ q.chatId = chatID ∧ q.deliveredOn = none := by
  unfold undeliveredQueueItems
  rw [mem_sortFireOnAsc, List.mem_filter]
  simp only [decide_eq_true_eq]

/-! ### Concrete store fixtures -/

/-- An item already delivered at instant 50. -/
def qDelivered : QueueItem :=
  { id := 1, chatId := 7, messageId := 3, message := "m", enqueuedOn := 0,
    fireOn := 100, deliveredOn := some 50, numTries := 1 }

/-- A store holding only `qDelivered`. -/
def dDelivered : Database :=
  { items := [qDelivered], nextId := 2, temps := [], nextTempId := 1 }

/-- An undelivered due item with 5 tries already spent. -/
def qOverTried : QueueItem :=
  { id := 1, chatId := 7, messageId := 3, message := "m", enqueuedOn := 0,
    fireOn := 10, deliveredOn := none, numTries := 5 }

/-- A store holding only `qOverTried`. -/
def dOverTried : Database :=
  { items := [qOverTried], nextId := 2, temps := [], nextTempId := 1 }

/-- An undelivered due item with 9 tries. -/
def qNineTries : QueueItem :=
  { id := 1, chatId := 7, messageId := 3, message := "a", enqueuedOn := 0,
    fireOn := 10, deliveredOn := none, numTries := 9 }

/-- An undelivered due item with 10 tries. -/
def qTenTries : QueueItem :=
  { id := 2, chatId := 7, messageId := 4, message := "b", enqueuedOn := 0,
    fireOn := 10, deliveredOn := none, numTries := 10 }

/-- A store holding `qNineTries` and `qTenTries`. -/
def dTries : Database :=
  { items := [qNineTries, qTenTries], nextId := 3, temps := [], nextTempId := 1 }

/-- The empty store. -/
def dEmpty : Database := { items := [], nextId := 1, temps := [], nextTempId := 1 }

/-! ### Claim theorems for the Reminder Store and Dispatch Loop -/

/-- C1 counterexample: on an item already delivered at instant 50, a second
MarkDelivered at instant 60 reports a changed row (true) and overwrites
deliveredOn with 60, whereas the claim predicts false and an unchanged
deliveredOn value. -/
theorem c1_counterexample :
    (markQueueItemAsDelivered dDelivered 7 1 60).2 = true ∧
    (markQueueItemAsDelivered dDelivered 7 1 60).1.items.map (fun q => q.deliveredOn) =
      [some 60] := by
  decide

/-- C1 amended: MarkDelivered sets deliveredOn = now on the matching item
unconditionally, overwriting any previously stored value (so a second call
replaces the instant written by the first), and returns true iff an item
with that (chatId, id) exists; false is returned only when no item matches,
which is a non-error. -/
theorem c1_amended_mark_overwrites (d : Database) (chatID queueID : Int) (now : Nat) :
    (markQueueItemAsDelivered d chatID queueID now).1.items =
      d.items.map (fun q =>
        if q.id = queueID ∧ q.chatId = chatID then { q with deliveredOn := some now }
        else q) ∧
    ((markQueueItemAsDelivered d chatID queueID now).2 = true ↔
      ∃ q ∈ d.items, q.id = queueID ∧ q.chatId = chatID) := by
  refine ⟨rfl, ?_⟩
  simp [markQueueItemAsDelivered, List.countP_pos_iff]

/-- C2: one dispatch attempt of processQueue increments numTries of the
attempted item exactly once regardless of the send outcome, and sets
deliveredOn (via MarkDelivered) iff the send reported success; a failed
send leaves deliveredOn unchanged. -/
theorem c2_dispatch_attempt (d : Database) (q : QueueItem) (sendOk : Bool) (now : Nat) :
    (dispatchAttempt d q sendOk now).items =
      d.items.map (fun r =>
        if r.id = q.id ∧ r.chatId = q.chatId then
          { r with numTries := r.numTries + 1,
                   deliveredOn := if sendOk then some now else r.deliveredOn }
        else r) := by
  cases sendOk with
  | false =>
    unfold dispatchAttempt increaseNumTries
    simp
  | true =>
    unfold dispatchAttempt markQueueItemAsDelivered increaseNumTries
    simp only [if_true, List.map_map]
    refine List.map_congr_left ?_
    intro r _
    by_cases h : r.id = q.id ∧ r.chatId = q.chatId
    · simp [Function.comp, h]
    · simp [Function.comp, h]

/-- C3 counterexample: with maxNumTries = 0, an undelivered due item with
numTries = 5 ≥ maxNumTries is still returned (the store substitutes the
internal default bound 10), refuting the claim's quantification over every
maxNumTries. -/
theorem c3_counterexample :
    qOverTried ∈ deliverableQueueItems dOverTried 0 100 ∧
    (0 : Int) ≤ (qOverTried.numTries : Int) := by
  decide

/-- C3 amended: DeliverableItems returns exactly the items satisfying
deliveredOn null, numTries below the effective bound and fireOn ≤ now,
where the effective bound is maxNumTries when positive and the internal
default DefaultMaxNumTries = 10 when maxNumTries ≤ 0. -/
theorem c3_amended_deliverable_exact (d : Database) (maxNumTries : Int) (now : Nat)
    (q : QueueItem) :
    q ∈ deliverableQueueItems d maxNumTries now ↔
      q ∈ d.items ∧ q.deliveredOn = none ∧
        (q.numTries : Int) < (if maxNumTries ≤ 0 then DefaultMaxNumTries else maxNumTries) ∧
        q.fireOn ≤ now :=
  mem_deliverableQueueItems d maxNumTries now q

/-- C7: an undelivered item whose numTries has reached the (positive) try
budget is excluded from DeliverableItems but still appears in
UndeliveredItems for its chat, a list ordered by fireOn ascending;
reaching the budget does not delete the item. -/
theorem c7_exhausted_still_listed (d : Database) (q : QueueItem) (maxNumTries : Int)
    (now : Nat) (hq : q ∈ d.items) (hdel : q.deliveredOn = none)
    (hpos : 0 < maxNumTries) (htries : maxNumTries ≤ (q.numTries : Int)) :
    q ∉ deliverableQueueItems d maxNumTries now ∧
    q ∈ undeliveredQueueItems d q.chatId ∧
    List.Pairwise (fun a b => a.fireOn ≤ b.fireOn) (undeliveredQueueItems d q.chatId) := by
  refine ⟨?_, ?_, ?_⟩
  · intro hmem
    rcases (mem_deliverableQueueItems d maxNumTries now q).mp hmem with ⟨_, _, hlt, _⟩
    rw [if_neg (by omega)] at hlt
    omega
  · exact (mem_undeliveredQueueItems d q.chatId q).mpr ⟨hq, rfl, hdel⟩
  · exact pairwise_sortFireOnAsc _

/-- C7 witness: the over-tried item with budget 3 at a concrete store. -/
theorem c7_exhausted_still_listed_witness :
    qOverTried ∉ deliverableQueueItems dOverTried 3 100 ∧
    qOverTried ∈ undeliveredQueueItems dOverTried 7 ∧
    List.Pairwise (fun a b => a.fireOn ≤ b.fireOn) (undeliveredQueueItems dOverTried 7) :=
  c7_exhausted_still_listed dOverTried qOverTried 3 100
    (by decide) (by decide) (by decide) (by decide)

/-- C8 (code bug): every item created by Enqueue carries enqueuedOn = 0, the
zero value, never the creation instant — the Save literal in Enqueue does
not assign the EnqueuedOn field and gorm auto-fills only CreatedAt and
UpdatedAt — so the order-by enqueued_on desc of DeliverableQueueItems
compares all-equal zero values for such items. -/
theorem c8_enqueuedOn_never_set (d : Database) (chatID messageID : Int)
    (message : String) (fireOn : Nat) :
    ((enqueue d chatID messageID message fireOn).1.items.getLast?).map
      (fun q => q.enqueuedOn) = some 0 ∧
    (enqueue d chatID messageID message fireOn).2 = true := by
  refine ⟨?_, rfl⟩
  have hitems : (enqueue d chatID messageID message fireOn).1.items =
      d.items ++ [(⟨d.nextId, chatID, messageID, message, 0, fireOn, none, 0⟩ : QueueItem)] := rfl
  rw [hitems, List.getLast?_concat]
  rfl

/-- C9 counterexample: saving message "m1" and then "m2" under the key
(7, 3) and loading returns "m1" — Load is a First over rows inserted by
Create, ordered by ascending primary key — not the most recently saved
"m2" that the claim predicts. -/
theorem c9_counterexample :
    ((loadTemporaryMessage
        (saveTemporaryMessage (saveTemporaryMessage dEmpty 7 3 "m1" 10).1 7 3 "m2" 20).1
        7 3).map (fun t => t.message)) = some "m1" ∧
    ("m1" : String) ≠ "m2" := by
  exact ⟨rfl, by decide⟩

/-- C9 amended: pending selections are first-write-wins on read: starting
from a store with no pending row for (chatId, originMessageId), after
SavePendingSelection with m1 and then m2 (no intervening delete),
LoadPendingSelection returns the earliest saved message m1; Save inserts a
fresh row each time rather than overwriting the existing one. -/
theorem c9_amended_first_write_wins (d : Database) (chatID messageID : Int)
    (m1 m2 : String) (t1 t2 : Nat)
    (h : loadTemporaryMessage d chatID messageID = none) :
    (loadTemporaryMessage
        (saveTemporaryMessage (saveTemporaryMessage d chatID messageID m1 t1).1
          chatID messageID m2 t2).1
        chatID messageID).map (fun t => t.message) = some m1 := by
  unfold loadTemporaryMessage saveTemporaryMessage
  unfold loadTemporaryMessage at h
  simp only [List.append_assoc, List.find?_append, h, Option.none_orElse]
  simp

/-- C9 amended witness: the concrete empty store. -/
theorem c9_amended_first_write_wins_witness :
    (loadTemporaryMessage
        (saveTemporaryMessage (saveTemporaryMessage dEmpty 7 3 "m1" 10).1 7 3 "m2" 20).1
        7 3).map (fun t => t.message) = some "m1" :=
  c9_amended_first_write_wins dEmpty 7 3 "m1" "m2" 10 20 (by decide)

/-- C10: a non-positive maxNumTries is silently replaced by the internal
default bound DefaultMaxNumTries = 10 — not treated as unlimited and not an
error: the scan equals the one with the effective bound, an undelivered due
item with numTries = 9 is returned for maxNumTries = 0 while one with
numTries = 10 is not. -/
theorem c10_default_bound :
    (∀ (d : Database) (m : Int) (now : Nat),
      deliverableQueueItems d m now =
        deliverableQueueItems d (if m ≤ 0 then DefaultMaxNumTries else m) now) ∧
    qNineTries ∈ deliverableQueueItems dTries 0 100 ∧
    qTenTries ∉ deliverableQueueItems dTries 0 100 := by
  refine ⟨?_, by decide, by decide⟩
  intro d m now
  by_cases hm : m ≤ 0
  · simp [deliverableQueueItems, hm, DefaultMaxNumTries]
  · simp [deliverableQueueItems, hm]

end ReminderBot
